import Mathlib

/-!
Shallow embedding of `src/vulkano/src/command_buffer/pool/standard.rs`
(the `StandardCommandPool` thread-sharded command-buffer allocator and
recycler), together with proofs settling the frozen claims about it.

Modelling conventions:
* Native command-buffer handles (`UnsafeCommandPoolAlloc`) are identified by
  `Nat`; the native pool hands out pairwise distinct handles, modelled by a
  global fresh counter `nextFresh`.
* `Arc`/`Weak` reference counting is made explicit: the strong count of the
  registry (`StandardCommandPool`) is `externalStrong` (strong references held
  by the application) plus one per alive `StandardCommandPoolAlloc` (each holds
  the `pool_parent: Arc<StandardCommandPool>` field).  A `Weak` upgrade
  succeeds exactly when the strong count is positive.  The strong count of a
  per-thread sub-pool is the number of alive handles whose `pool` field
  references it (the registry's own reference to it is `Weak`).
* The `crossbeam` `SegQueue` is a FIFO queue: `push` appends at the tail,
  `pop` removes the head.
* The fallible native layer is driven by oracles: `createErr` is the outcome
  of `UnsafeCommandPool::new` and `allocErr` the outcome of
  `allocate_command_buffers` (`none` = success, `some e` = out-of-memory).
* `allocate` also returns a trace of lock and native-layer events, emitted in
  the order the source performs them; in Rust the `MutexGuard`s are released
  when they go out of scope, so the per-thread map guard taken at the top of
  `allocate` is released only when the function returns, and the sub-pool's
  pool guard at the end of the block that performs the native allocation.
* An `Arc` dereference cannot fail in Rust; in states where a referenced
  sub-pool id is (impossibly) absent from the heap, lookups default to an
  empty sub-pool so that the model stays total.
-/

/-- `CommandBufferLevel` from the source: primary or secondary. -/
inductive CommandBufferLevel where
  | Primary
  | Secondary
deriving DecidableEq, Repr

/-- The level that is not `l` (used to state level-isolation properties). -/
def CommandBufferLevel.other : CommandBufferLevel → CommandBufferLevel
  | .Primary => .Secondary
  | .Secondary => .Primary

/-- `OomError` from the source crate: the only recoverable native failure. -/
inductive OomError where
  | OutOfHostMemory
  | OutOfDeviceMemory
deriving DecidableEq, Repr

/-- A device, identified by the physical device it belongs to. -/
structure Device where
  physicalDevice : Nat
deriving DecidableEq, Repr

/-- A queue family: its physical device and its id. -/
structure QueueFamily where
  physicalDevice : Nat
  id : Nat
deriving DecidableEq, Repr

/-- The static fields of `StandardCommandPool` (the per-thread map, being
mutable shared state, lives in `SysState`). -/
structure StandardCommandPool where
  device : Device
  queue_family : Nat
deriving DecidableEq, Repr

/-- `StandardCommandPool::new`: asserts that the device and the queue family
belong to the same physical device (`assert_eq!`, i.e. a panic — modelled as
`none`), then stores the device and the queue family's id. -/
def StandardCommandPool.new (device : Device) (qf : QueueFamily) :
    Option StandardCommandPool :=
  if device.physicalDevice = qf.physicalDevice then
    some { device := device, queue_family := qf.id }
  else
    none

/-- `StandardCommandPoolPerThread`: the two `SegQueue`s of recyclable native
handles (head = front of the FIFO).  The wrapped `UnsafeCommandPool` itself is
modelled by the global fresh counter. -/
structure StandardCommandPoolPerThread where
  available_primary_command_buffers : List Nat
  available_secondary_command_buffers : List Nat
deriving DecidableEq, Repr

/-- The empty per-thread sub-pool (as built on first use by a thread). -/
def emptyPerThread : StandardCommandPoolPerThread :=
  { available_primary_command_buffers := []
    available_secondary_command_buffers := [] }

/-- The recycle queue of `p` for `level`. -/
def queueOf (p : StandardCommandPoolPerThread) (level : CommandBufferLevel) :
    List Nat :=
  match level with
  | .Primary => p.available_primary_command_buffers
  | .Secondary => p.available_secondary_command_buffers

/-- Replace the recycle queue of `p` for `level`. -/
def setQueue (p : StandardCommandPoolPerThread) (level : CommandBufferLevel)
    (q : List Nat) : StandardCommandPoolPerThread :=
  match level with
  | .Primary => { p with available_primary_command_buffers := q }
  | .Secondary => { p with available_secondary_command_buffers := q }

/-- `SegQueue::push` on the queue selected by `level` (FIFO: append at the
tail), as performed by `Drop for StandardCommandPoolAlloc`. -/
def pushRecycle (p : StandardCommandPoolPerThread) (level : CommandBufferLevel)
    (c : Nat) : StandardCommandPoolPerThread :=
  setQueue p level (queueOf p level ++ [c])

/-- `StandardCommandPoolAlloc`: the native handle (`cmd`), the id of the
origin sub-pool (`pool: Arc<StandardCommandPoolPerThread>`) and the level.
The `pool_parent: Arc<StandardCommandPool>` and `device` strong references are
accounted for in `SysState` (one registry strong reference per alive value of
this type). -/
structure StandardCommandPoolAlloc where
  cmd : Nat
  pool : Nat
  level : CommandBufferLevel
deriving DecidableEq, Repr

/-- `StandardCommandPoolBuilder`: wraps an alloc; the `PhantomData` marker
only removes `Send`/`Sync` and has no runtime content. -/
structure StandardCommandPoolBuilder where
  inner : StandardCommandPoolAlloc
deriving DecidableEq, Repr

/-- `StandardCommandPoolBuilder::into_alloc`: returns the wrapped alloc. -/
def StandardCommandPoolBuilder.into_alloc (b : StandardCommandPoolBuilder) :
    StandardCommandPoolAlloc :=
  b.inner

/-- Lock and native-layer events, in the order `allocate` / `Drop` perform
them. -/
inductive Event where
  | acquireMapLock
  | releaseMapLock
  | acquirePoolLock
  | releasePoolLock
  | nativeCreatePool
  | nativeAllocateBuffers (count : Nat)
  | nativeDestroyBuffer (cmd : Nat)
  | pushRecycleEv (level : CommandBufferLevel) (cmd : Nat)
deriving DecidableEq, Repr

/-- Whether an event is a call into the native layer. -/
def Event.isNative : Event → Bool
  | .nativeCreatePool => true
  | .nativeAllocateBuffers _ => true
  | .nativeDestroyBuffer _ => true
  | _ => false

/-- The whole mutable state of one registry and everything allocated from it. -/
structure SysState where
  /-- `per_thread`: thread id ↦ `Weak` reference to that thread's sub-pool
  (modelled as the sub-pool's id; liveness is derived from strong counts). -/
  per_thread : List (Nat × Nat)
  /-- The heap of sub-pools, keyed by id. -/
  subPools : List (Nat × StandardCommandPoolPerThread)
  /-- Fresh sub-pool ids. -/
  nextPoolId : Nat
  /-- Fresh native handles (the native pools hand out distinct handles). -/
  nextFresh : Nat
  /-- Strong references to the registry held outside of alloc handles. -/
  externalStrong : Nat
  /-- Alive handles (builders and allocs; a builder wraps an alloc and adds no
  runtime state). -/
  handles : List StandardCommandPoolAlloc
deriving DecidableEq, Repr

/-- First-match association-list lookup (`HashMap::get`). -/
def mapLookup {α : Type} : List (Nat × α) → Nat → Option α
  | [], _ => none
  | (k2, v) :: rest, k => if k = k2 then some v else mapLookup rest k

/-- Replace the first binding of `k`, or append one (`HashMap::insert`). -/
def mapInsert {α : Type} : List (Nat × α) → Nat → α → List (Nat × α)
  | [], k, v => [(k, v)]
  | (k2, v2) :: rest, k, v =>
    if k = k2 then (k, v) :: rest else (k2, v2) :: mapInsert rest k v

/-- `Weak::upgrade` on a sub-pool reference succeeds iff some alive handle
holds a strong reference to that sub-pool. -/
def subPoolLive (s : SysState) (pid : Nat) : Bool :=
  s.handles.any (fun a => a.pool == pid)

/-- `Weak::upgrade` on a registry reference succeeds iff its strong count
(external references plus one per alive handle) is positive. -/
def registryUpgradeOk (s : SysState) : Bool :=
  decide (0 < s.externalStrong + s.handles.length)

/-- Dropping one application-held `Arc<StandardCommandPool>`. -/
def dropRegistryRef (s : SysState) : SysState :=
  { s with externalStrong := s.externalStrong - 1 }

/-- `hashmap.retain(|_, w| w.upgrade().is_some())`: the per-thread map after
purging the entries whose sub-pool is no longer alive. -/
def purgedMap (s : SysState) : List (Nat × Nat) :=
  s.per_thread.filter (fun e => subPoolLive s e.2)

/-- `hashmap.get(&this_thread).and_then(Weak::upgrade)` on the purged map:
the calling thread's sub-pool id, if its entry exists and still upgrades. -/
def resolveLive (purged : List (Nat × Nat)) (s : SysState) (tid : Nat) :
    Option Nat :=
  (mapLookup purged tid).bind (fun pid =>
    if subPoolLive s pid then some pid else none)

instance instDecEqExcept {ε α : Type} [DecidableEq ε] [DecidableEq α] :
    DecidableEq (Except ε α) := fun x y =>
  match x, y with
  | .ok a, .ok b =>
    if h : a = b then isTrue (by rw [h])
    else isFalse (fun hc => by cases hc; exact h rfl)
  | .error a, .error b =>
    if h : a = b then isTrue (by rw [h])
    else isFalse (fun hc => by cases hc; exact h rfl)
  | .ok _, .error _ => isFalse (fun hc => by cases hc)
  | .error _, .ok _ => isFalse (fun hc => by cases hc)

/-- Result, post-state and event trace of one `allocate` call. -/
structure AllocOutcome where
  result : Except OomError (List StandardCommandPoolBuilder)
  state : SysState
  trace : List Event
deriving DecidableEq, Repr

/-- Dereference the `Arc` to sub-pool `pid` (an `Arc` dereference cannot fail;
the default covers states no execution produces). -/
def poolAt (s : SysState) (pid : Nat) : StandardCommandPoolPerThread :=
  (mapLookup s.subPools pid).getD emptyPerThread

/-- Wrap native handle `c` of sub-pool `pid` as a `StandardCommandPoolBuilder`
(the builder's alloc holds strong references to the sub-pool and registry). -/
def mkBuilder (c pid : Nat) (level : CommandBufferLevel) :
    StandardCommandPoolBuilder :=
  { inner := { cmd := c, pool := pid, level := level } }

/-- The body of `allocate` once the calling thread's sub-pool `pid` is in
hand (the map guard is still held — it is released only when the function
returns): pop up to `count` handles from the recycle queue of the requested
level, then, if short, take the sub-pool's pool lock and request the remainder
from the native pool in one batch.  On a native out-of-memory the popped
builders (the local `output` vector) are dropped, which pushes their handles
back onto the tail of the queue they came from. -/
def allocateBody (s : SysState) (pid : Nat) (level : CommandBufferLevel)
    (count : Nat) (allocErr : Option OomError) (pre : List Event) :
    AllocOutcome :=
  let p := poolAt s pid
  let q := queueOf p level
  let popped := q.take count
  let rest := q.drop count
  let recycled := popped.map (fun c => mkBuilder c pid level)
  if popped.length < count then
    let need := count - popped.length
    match allocErr with
    | some e =>
      { result := .error e
        state := { s with
          subPools := mapInsert s.subPools pid (setQueue p level (rest ++ popped)) }
        trace := pre ++ [.acquirePoolLock, .nativeAllocateBuffers need,
          .releasePoolLock, .releaseMapLock] }
    | none =>
      let fresh := (List.range' s.nextFresh need).map (fun c => mkBuilder c pid level)
      let out := recycled ++ fresh
      { result := .ok out
        state := { s with
          subPools := mapInsert s.subPools pid (setQueue p level rest)
          nextFresh := s.nextFresh + need
          handles := s.handles ++ out.map (fun b => b.inner) }
        trace := pre ++ [.acquirePoolLock, .nativeAllocateBuffers need,
          .releasePoolLock, .releaseMapLock] }
  else
    { result := .ok recycled
      state := { s with
        subPools := mapInsert s.subPools pid (setQueue p level rest)
        handles := s.handles ++ recycled.map (fun b => b.inner) }
      trace := pre ++ [.releaseMapLock] }

/-- `CommandPool::allocate for Arc<StandardCommandPool>`: take the map lock,
purge dead entries, resolve or lazily create the calling thread's sub-pool
(creating it calls `UnsafeCommandPool::new`, whose out-of-memory failure is
returned and whose other failures panic), then run the allocation body.  The
map guard is dropped — and the lock released — only when the call returns. -/
def allocate (s : SysState) (tid : Nat) (level : CommandBufferLevel)
    (count : Nat) (createErr allocErr : Option OomError) : AllocOutcome :=
  let purged := purgedMap s
  let s1 := { s with per_thread := purged }
  match resolveLive purged s tid with
  | some pid => allocateBody s1 pid level count allocErr [.acquireMapLock]
  | none =>
    match createErr with
    | some e =>
      { result := .error e
        state := s1
        trace := [.acquireMapLock, .nativeCreatePool, .releaseMapLock] }
    | none =>
      let pid := s.nextPoolId
      let s2 := { s1 with
        per_thread := mapInsert purged tid pid
        subPools := (pid, emptyPerThread) :: s.subPools
        nextPoolId := s.nextPoolId + 1 }
      allocateBody s2 pid level count allocErr
        [.acquireMapLock, .nativeCreatePool]

/-- Remove the first occurrence of `a` (the dropped value itself) from the
alive-handle list. -/
def removeOne : List StandardCommandPoolAlloc → StandardCommandPoolAlloc →
    List StandardCommandPoolAlloc
  | [], _ => []
  | x :: rest, a => if x = a then rest else x :: removeOne rest a

/-- `Drop for StandardCommandPoolAlloc`: extract the native handle from the
`ManuallyDrop` holder (a one-time move — the native destructor never runs) and
push it onto the origin sub-pool's recycle queue selected by the handle's
level. -/
def dropAlloc (s : SysState) (a : StandardCommandPoolAlloc) : SysState :=
  { s with
    handles := removeOne s.handles a
    subPools := mapInsert s.subPools a.pool
      (pushRecycle (poolAt s a.pool) a.level a.cmd) }

/-- `Drop for StandardCommandPoolAlloc` with its event trace: the push is
lock-free and makes no native call. -/
def dropAllocTr (s : SysState) (a : StandardCommandPoolAlloc) :
    SysState × List Event :=
  (dropAlloc s a, [.pushRecycleEv a.level a.cmd])

/-- A freshly constructed registry, one application strong reference, nothing
allocated yet. -/
def initState : SysState :=
  { per_thread := []
    subPools := []
    nextPoolId := 0
    nextFresh := 0
    externalStrong := 1
    handles := [] }

/-- Occurrences of native handle `c` among the alive handles. -/
def countCmdH (l : List StandardCommandPoolAlloc) (c : Nat) : Nat :=
  l.countP (fun a => a.cmd == c)

/-- Occurrences of native handle `c` across all recycle queues. -/
def countCmdP (ps : List (Nat × StandardCommandPoolPerThread)) (c : Nat) :
    Nat :=
  (ps.map (fun e =>
    (queueOf e.2 .Primary).count c + (queueOf e.2 .Secondary).count c)).sum

/-- Checks that no native buffer allocation happens while the per-thread map
lock is held (the boolean argument tracks whether the lock is held). -/
def noNativeAllocWhileMapLocked : List Event → Bool → Bool
  | [], _ => true
  | e :: rest, locked =>
    match e with
    | .acquireMapLock => noNativeAllocWhileMapLocked rest true
    | .releaseMapLock => noNativeAllocWhileMapLocked rest false
    | .nativeAllocateBuffers _ => !locked && noNativeAllocWhileMapLocked rest locked
    | _ => noNativeAllocWhileMapLocked rest locked

/-- Checks that every native buffer allocation happens while both the
per-thread map lock and the sub-pool's pool lock are held. -/
def nativeAllocsUnderBothLocks : List Event → Bool → Bool → Bool
  | [], _, _ => true
  | e :: rest, m, p =>
    match e with
    | .acquireMapLock => nativeAllocsUnderBothLocks rest true p
    | .releaseMapLock => nativeAllocsUnderBothLocks rest false p
    | .acquirePoolLock => nativeAllocsUnderBothLocks rest m true
    | .releasePoolLock => nativeAllocsUnderBothLocks rest m false
    | .nativeAllocateBuffers _ => m && p && nativeAllocsUnderBothLocks rest m p
    | _ => nativeAllocsUnderBothLocks rest m p

/-- Scenario of the `reuse_command_buffers` test: one Primary handle is
allocated and retained (it keeps the sub-pool's weak reference upgradable). -/
def c4_r1 : AllocOutcome :=
  allocate initState 0 CommandBufferLevel.Primary 1 none none

/-- Second step: allocate another Primary handle on the same thread. -/
def c4_r2 : AllocOutcome :=
  allocate c4_r1.state 0 CommandBufferLevel.Primary 1 none none

/-- Third step: drop the second handle (the value `c4_r2` returned). -/
def c4_s2 : SysState :=
  dropAlloc c4_r2.state
    { cmd := 1, pool := 0, level := CommandBufferLevel.Primary }

/-- Fourth step: allocate a third Primary handle on the same thread. -/
def c4_r3 : AllocOutcome :=
  allocate c4_s2 0 CommandBufferLevel.Primary 1 none none

/-- The native handles of a call's resulting builders, if it succeeded. -/
def resultCmds (o : AllocOutcome) : Except OomError (List Nat) :=
  o.result.map (fun l => l.map (fun b => b.inner.cmd))

/-! ## Helper lemmas -/

theorem queueOf_setQueue_self (p : StandardCommandPoolPerThread)
    (level : CommandBufferLevel) (q : List Nat) :
    queueOf (setQueue p level q) level = q := by
  cases level <;> rfl

theorem queueOf_setQueue_other (p : StandardCommandPoolPerThread)
    (level : CommandBufferLevel) (q : List Nat) :
    queueOf (setQueue p level q) level.other = queueOf p level.other := by
  cases level <;> rfl

theorem queueOf_pushRecycle_self (p : StandardCommandPoolPerThread)
    (level : CommandBufferLevel) (c : Nat) :
    queueOf (pushRecycle p level c) level = queueOf p level ++ [c] := by
  cases level <;> rfl

theorem queueOf_pushRecycle_other (p : StandardCommandPoolPerThread)
    (level : CommandBufferLevel) (c : Nat) :
    queueOf (pushRecycle p level c) level.other = queueOf p level.other := by
  cases level <;> rfl

theorem mapLookup_mapInsert_self {α : Type} (m : List (Nat × α)) (k : Nat)
    (v : α) : mapLookup (mapInsert m k v) k = some v := by
  induction m with
  | nil => simp [mapInsert, mapLookup]
  | cons e rest ih =>
    by_cases h : k = e.1
    · simp [mapInsert, mapLookup, h]
    · simp [mapInsert, mapLookup, h, ih]

theorem mapLookup_mapInsert_ne {α : Type} (m : List (Nat × α)) (k k2 : Nat)
    (v : α) (h : k2 ≠ k) :
    mapLookup (mapInsert m k v) k2 = mapLookup m k2 := by
  induction m with
  | nil => simp [mapInsert, mapLookup, h]
  | cons e rest ih =>
    by_cases hk : k = e.1
    · subst hk
      simp [mapInsert, mapLookup, h]
    · by_cases hk2 : k2 = e.1
      · simp [mapInsert, mapLookup, hk, hk2]
      · simp [mapInsert, mapLookup, hk, hk2, ih]

theorem mem_mapInsert {α : Type} (m : List (Nat × α)) (k : Nat) (v : α)
    (e : Nat × α) (he : e ∈ mapInsert m k v) : e = (k, v) ∨ e ∈ m := by
  induction m with
  | nil =>
    simp [mapInsert] at he
    exact Or.inl he
  | cons e2 rest ih =>
    by_cases h : k = e2.1
    · simp [mapInsert, h] at he
      rcases he with he | he
      · exact Or.inl (by rw [he, h])
      · exact Or.inr (List.mem_cons_of_mem _ he)
    · simp only [mapInsert, if_neg h, List.mem_cons] at he
      rcases he with he | he
      · exact Or.inr (by simp [he])
      · rcases ih he with h2 | h2
        · exact Or.inl h2
        · exact Or.inr (List.mem_cons_of_mem _ h2)

theorem mapLookup_mem {α : Type} (m : List (Nat × α)) (k : Nat) (v : α)
    (h : mapLookup m k = some v) : (k, v) ∈ m := by
  induction m with
  | nil => simp [mapLookup] at h
  | cons e rest ih =>
    by_cases hk : k = e.1
    · simp only [mapLookup, if_pos hk] at h
      cases h
      subst hk
      exact List.mem_cons_self _ _
    · simp only [mapLookup, if_neg hk] at h
      exact List.mem_cons_of_mem _ (ih h)

theorem countCmdH_pos (l : List StandardCommandPoolAlloc)
    (a : StandardCommandPoolAlloc) (ha : a ∈ l) : 0 < countCmdH l a.cmd := by
  induction l with
  | nil => cases ha
  | cons x rest ih =>
    rcases List.mem_cons.1 ha with h | h
    · subst h
      simp [countCmdH, List.countP_cons]
    · have := ih h
      simp only [countCmdH, List.countP_cons] at *
      omega

theorem countCmdH_removeOne (l : List StandardCommandPoolAlloc)
    (a : StandardCommandPoolAlloc) (ha : a ∈ l) :
    countCmdH (removeOne l a) a.cmd = countCmdH l a.cmd - 1 := by
  induction l with
  | nil => cases ha
  | cons x rest ih =>
    by_cases hx : x = a
    · subst hx
      simp [removeOne, countCmdH, List.countP_cons]
    · have hmem : a ∈ rest := by
        rcases List.mem_cons.1 ha with h | h
        · exact absurd h.symm hx
        · exact h
      have hpos := countCmdH_pos rest a hmem
      simp only [removeOne, if_neg hx, countCmdH, List.countP_cons] at *
      rw [ih hmem]
      omega

theorem queuePairCount_pushRecycle (p : StandardCommandPoolPerThread)
    (level : CommandBufferLevel) (c : Nat) :
    (queueOf (pushRecycle p level c) .Primary).count c
      + (queueOf (pushRecycle p level c) .Secondary).count c
    = ((queueOf p .Primary).count c + (queueOf p .Secondary).count c) + 1 := by
  cases level <;> simp [pushRecycle, setQueue, queueOf, List.count_append] <;> omega

theorem countCmdP_insertPush (ps : List (Nat × StandardCommandPoolPerThread))
    (k : Nat) (level : CommandBufferLevel) (c : Nat) :
    countCmdP (mapInsert ps k
      (pushRecycle ((mapLookup ps k).getD emptyPerThread) level c)) c
    = countCmdP ps c + 1 := by
  induction ps with
  | nil =>
    cases level <;>
      simp [mapInsert, mapLookup, countCmdP, pushRecycle, setQueue, queueOf,
        emptyPerThread]
  | cons e rest ih =>
    by_cases h : k = e.1
    · simp only [mapInsert, mapLookup, if_pos h, Option.getD_some, countCmdP,
        List.map_cons, List.sum_cons]
      rw [show (queueOf (pushRecycle e.2 level c) CommandBufferLevel.Primary).count c
            + (queueOf (pushRecycle e.2 level c) CommandBufferLevel.Secondary).count c
          = ((queueOf e.2 CommandBufferLevel.Primary).count c
            + (queueOf e.2 CommandBufferLevel.Secondary).count c) + 1
          from queuePairCount_pushRecycle e.2 level c]
      omega
    · simp only [mapInsert, mapLookup, if_neg h, countCmdP, List.map_cons,
        List.sum_cons] at *
      rw [ih]
      omega

theorem allocate_resolved (s : SysState) (tid : Nat)
    (level : CommandBufferLevel) (count : Nat) (cE aE : Option OomError)
    (pid : Nat) (hres : resolveLive (purgedMap s) s tid = some pid) :
    allocate s tid level count cE aE
      = allocateBody { s with per_thread := purgedMap s } pid level count aE
          [.acquireMapLock] := by
  simp [allocate, hres]

theorem allocate_createErr (s : SysState) (tid : Nat)
    (level : CommandBufferLevel) (count : Nat) (e : OomError)
    (aE : Option OomError) (hres : resolveLive (purgedMap s) s tid = none) :
    allocate s tid level count (some e) aE
      = { result := .error e
          state := { s with per_thread := purgedMap s }
          trace := [.acquireMapLock, .nativeCreatePool, .releaseMapLock] } := by
  simp [allocate, hres]

theorem allocate_fresh (s : SysState) (tid : Nat)
    (level : CommandBufferLevel) (count : Nat) (aE : Option OomError)
    (hres : resolveLive (purgedMap s) s tid = none) :
    allocate s tid level count none aE
      = allocateBody
          { s with
            per_thread := mapInsert (purgedMap s) tid s.nextPoolId
            subPools := (s.nextPoolId, emptyPerThread) :: s.subPools
            nextPoolId := s.nextPoolId + 1 }
          s.nextPoolId level count aE
          [.acquireMapLock, .nativeCreatePool] := by
  simp [allocate, hres]


theorem allocateBody_per_thread (s : SysState) (pid : Nat)
    (level : CommandBufferLevel) (count : Nat) (aE : Option OomError)
    (pre : List Event) :
    (allocateBody s pid level count aE pre).state.per_thread = s.per_thread := by
  by_cases h : (queueOf (poolAt s pid) level).length < count
  · cases aE <;> simp [allocateBody, h]
  · simp [allocateBody, h]

theorem allocateBody_nextPoolId (s : SysState) (pid : Nat)
    (level : CommandBufferLevel) (count : Nat) (aE : Option OomError)
    (pre : List Event) :
    (allocateBody s pid level count aE pre).state.nextPoolId = s.nextPoolId := by
  by_cases h : (queueOf (poolAt s pid) level).length < count
  · cases aE <;> simp [allocateBody, h]
  · simp [allocateBody, h]

theorem allocateBody_result_noShort (s : SysState) (pid : Nat)
    (level : CommandBufferLevel) (count : Nat) (aE : Option OomError)
    (pre : List Event)
    (h : count ≤ (queueOf (poolAt s pid) level).length) :
    (allocateBody s pid level count aE pre).result
      = .ok (((queueOf (poolAt s pid) level).take count).map
          (fun c => mkBuilder c pid level)) := by
  have hlt : ¬ ((queueOf (poolAt s pid) level).length < count) := by omega
  simp [allocateBody, hlt]

theorem allocateBody_result_short_ok (s : SysState) (pid : Nat)
    (level : CommandBufferLevel) (count : Nat) (pre : List Event)
    (h : (queueOf (poolAt s pid) level).length < count) :
    (allocateBody s pid level count none pre).result
      = .ok ((queueOf (poolAt s pid) level).map (fun c => mkBuilder c pid level)
          ++ (List.range' s.nextFresh
                (count - (queueOf (poolAt s pid) level).length)).map
              (fun c => mkBuilder c pid level)) := by
  simp [allocateBody, h, List.take_of_length_le (le_of_lt h),
    min_eq_right (le_of_lt h)]

theorem allocateBody_result_short_err (s : SysState) (pid : Nat)
    (level : CommandBufferLevel) (count : Nat) (e : OomError)
    (pre : List Event)
    (h : (queueOf (poolAt s pid) level).length < count) :
    (allocateBody s pid level count (some e) pre).result = .error e := by
  simp [allocateBody, h]

theorem allocateBody_trace_noShort (s : SysState) (pid : Nat)
    (level : CommandBufferLevel) (count : Nat) (aE : Option OomError)
    (pre : List Event)
    (h : count ≤ (queueOf (poolAt s pid) level).length) :
    (allocateBody s pid level count aE pre).trace
      = pre ++ [.releaseMapLock] := by
  have hlt : ¬ ((queueOf (poolAt s pid) level).length < count) := by omega
  simp [allocateBody, hlt]

theorem allocateBody_trace_short (s : SysState) (pid : Nat)
    (level : CommandBufferLevel) (count : Nat) (aE : Option OomError)
    (pre : List Event)
    (h : (queueOf (poolAt s pid) level).length < count) :
    (allocateBody s pid level count aE pre).trace
      = pre ++ [.acquirePoolLock,
          .nativeAllocateBuffers (count - (queueOf (poolAt s pid) level).length),
          .releasePoolLock, .releaseMapLock] := by
  cases aE <;>
    simp [allocateBody, h, min_eq_right (le_of_lt h)]

theorem allocateBody_subPools_ok (s : SysState) (pid : Nat)
    (level : CommandBufferLevel) (count : Nat) (aE : Option OomError)
    (pre : List Event) (l : List StandardCommandPoolBuilder)
    (hok : (allocateBody s pid level count aE pre).result = .ok l) :
    (allocateBody s pid level count aE pre).state.subPools
      = mapInsert s.subPools pid (setQueue (poolAt s pid) level
          ((queueOf (poolAt s pid) level).drop count)) := by
  by_cases h : (queueOf (poolAt s pid) level).length < count
  · cases aE with
    | some e =>
      rw [allocateBody_result_short_err s pid level count e pre h] at hok
      cases hok
    | none => simp [allocateBody, h]
  · simp [allocateBody, h]

theorem allocateBody_subPools_err (s : SysState) (pid : Nat)
    (level : CommandBufferLevel) (count : Nat) (e : OomError)
    (pre : List Event)
    (herr : (allocateBody s pid level count (some e) pre).result = .error e) :
    (allocateBody s pid level count (some e) pre).state.subPools
      = mapInsert s.subPools pid (setQueue (poolAt s pid) level
          ((queueOf (poolAt s pid) level).drop count
            ++ (queueOf (poolAt s pid) level).take count)) := by
  by_cases h : (queueOf (poolAt s pid) level).length < count
  · simp [allocateBody, h]
  · rw [allocateBody_result_noShort s pid level count (some e) pre (by omega)] at herr
    cases herr

theorem allocateBody_handles_ok (s : SysState) (pid : Nat)
    (level : CommandBufferLevel) (count : Nat) (aE : Option OomError)
    (pre : List Event) (l : List StandardCommandPoolBuilder)
    (hok : (allocateBody s pid level count aE pre).result = .ok l) :
    (allocateBody s pid level count aE pre).state.handles
      = s.handles ++ l.map (fun b => b.inner) := by
  by_cases h : (queueOf (poolAt s pid) level).length < count
  · cases aE with
    | some e =>
      rw [allocateBody_result_short_err s pid level count e pre h] at hok
      cases hok
    | none =>
      rw [allocateBody_result_short_ok s pid level count pre h] at hok
      cases hok
      simp [allocateBody, h, List.take_of_length_le (le_of_lt h),
        min_eq_right (le_of_lt h)]
  · rw [allocateBody_result_noShort s pid level count aE pre (by omega)] at hok
    cases hok
    simp [allocateBody, h]

theorem allocateBody_len (s : SysState) (pid : Nat)
    (level : CommandBufferLevel) (count : Nat) (aE : Option OomError)
    (pre : List Event) :
    (∃ e, (allocateBody s pid level count aE pre).result = .error e)
    ∨ (∃ l, (allocateBody s pid level count aE pre).result = .ok l
        ∧ l.length = count) := by
  by_cases h : (queueOf (poolAt s pid) level).length < count
  · cases aE with
    | some e =>
      exact Or.inl ⟨e, allocateBody_result_short_err s pid level count e pre h⟩
    | none =>
      refine Or.inr ⟨_, allocateBody_result_short_ok s pid level count pre h, ?_⟩
      simp
      omega
  · refine Or.inr ⟨_, allocateBody_result_noShort s pid level count aE pre (by omega), ?_⟩
    simp
    omega

/-- **C2.** For every level and every count, `allocate(level, count)` either
returns a sequence containing exactly `count` builder handles or a single
`OomError` for the whole call; partial success is not a representable
outcome. -/
theorem claim_C2_all_or_nothing (s : SysState) (tid : Nat)
    (level : CommandBufferLevel) (count : Nat) (cE aE : Option OomError) :
    (∃ e, (allocate s tid level count cE aE).result = .error e)
    ∨ (∃ l, (allocate s tid level count cE aE).result = .ok l
        ∧ l.length = count) := by
  cases hres : resolveLive (purgedMap s) s tid with
  | some pid =>
    rw [allocate_resolved s tid level count cE aE pid hres]
    exact allocateBody_len _ pid level count aE _
  | none =>
    cases cE with
    | some e =>
      rw [allocate_createErr s tid level count e aE hres]
      exact Or.inl ⟨e, rfl⟩
    | none =>
      rw [allocate_fresh s tid level count aE hres]
      exact allocateBody_len _ _ level count aE _

/-- **C1.** An alive alloc handle keeps both the registry and its origin
sub-pool alive (their weak references upgrade); once the last handle is
dropped and no other strong reference to the registry exists, a weak
reference to the registry no longer upgrades. -/
theorem claim_C1_handle_keepalive :
    (∀ (s : SysState) (a : StandardCommandPoolAlloc), a ∈ s.handles →
      registryUpgradeOk s = true ∧ subPoolLive s a.pool = true)
    ∧ (∀ (s : SysState) (a : StandardCommandPoolAlloc),
        s.externalStrong = 1 → s.handles = [a] →
        registryUpgradeOk (dropRegistryRef s) = true
        ∧ registryUpgradeOk (dropAlloc (dropRegistryRef s) a) = false) := by
  constructor
  · intro s a ha
    constructor
    · have hpos : 0 < s.handles.length :=
        List.length_pos.mpr (List.ne_nil_of_mem ha)
      simp [registryUpgradeOk]
      omega
    · simp only [subPoolLive, List.any_eq_true]
      exact ⟨a, ha, by simp⟩
  · intro s a h1 h2
    constructor
    · simp [registryUpgradeOk, dropRegistryRef, h1, h2]
    · simp [registryUpgradeOk, dropAlloc, dropRegistryRef, h1, h2, removeOne]

/-- Witness for C1: a registry with one outstanding handle and one external
strong reference; dropping the external reference keeps the weak reference
upgradable, dropping the handle then makes it fail. -/
theorem claim_C1_handle_keepalive_witness :
    (registryUpgradeOk
        { per_thread := [(0, 0)], subPools := [(0, emptyPerThread)],
          nextPoolId := 1, nextFresh := 1, externalStrong := 1,
          handles := [{ cmd := 0, pool := 0, level := .Primary }] } = true
      ∧ subPoolLive
        { per_thread := [(0, 0)], subPools := [(0, emptyPerThread)],
          nextPoolId := 1, nextFresh := 1, externalStrong := 1,
          handles := [{ cmd := 0, pool := 0, level := .Primary }] } 0 = true)
    ∧ (registryUpgradeOk (dropRegistryRef
        { per_thread := [(0, 0)], subPools := [(0, emptyPerThread)],
          nextPoolId := 1, nextFresh := 1, externalStrong := 1,
          handles := [{ cmd := 0, pool := 0, level := .Primary }] }) = true
      ∧ registryUpgradeOk (dropAlloc (dropRegistryRef
        { per_thread := [(0, 0)], subPools := [(0, emptyPerThread)],
          nextPoolId := 1, nextFresh := 1, externalStrong := 1,
          handles := [{ cmd := 0, pool := 0, level := .Primary }] })
        { cmd := 0, pool := 0, level := .Primary }) = false) :=
  ⟨claim_C1_handle_keepalive.1
      { per_thread := [(0, 0)], subPools := [(0, emptyPerThread)],
        nextPoolId := 1, nextFresh := 1, externalStrong := 1,
        handles := [{ cmd := 0, pool := 0, level := .Primary }] }
      { cmd := 0, pool := 0, level := .Primary } (by decide),
   claim_C1_handle_keepalive.2
      { per_thread := [(0, 0)], subPools := [(0, emptyPerThread)],
        nextPoolId := 1, nextFresh := 1, externalStrong := 1,
        handles := [{ cmd := 0, pool := 0, level := .Primary }] }
      { cmd := 0, pool := 0, level := .Primary } rfl rfl⟩

/-- **C10.** `StandardCommandPool::new` panics when the device and the queue
family do not belong to the same physical device; otherwise it succeeds and
stores the device and the queue family's id. -/
theorem claim_C10_new_assert (d : Device) (qf : QueueFamily) :
    (d.physicalDevice ≠ qf.physicalDevice → StandardCommandPool.new d qf = none)
    ∧ (d.physicalDevice = qf.physicalDevice →
        StandardCommandPool.new d qf
          = some { device := d, queue_family := qf.id }) := by
  constructor
  · intro h
    simp [StandardCommandPool.new, h]
  · intro h
    simp [StandardCommandPool.new, h]

/-- Witness for C10: mismatched physical devices panic, matched ones build
the pool with the queue family's id. -/
theorem claim_C10_new_assert_witness :
    StandardCommandPool.new { physicalDevice := 0 }
        { physicalDevice := 1, id := 5 } = none
    ∧ StandardCommandPool.new { physicalDevice := 0 }
        { physicalDevice := 0, id := 5 }
      = some { device := { physicalDevice := 0 }, queue_family := 5 } :=
  ⟨(claim_C10_new_assert _ _).1 (by decide),
   (claim_C10_new_assert { physicalDevice := 0 } { physicalDevice := 0, id := 5 }).2 rfl⟩

/-- **C4.** The `reuse_command_buffers` scenario: allocate one Primary handle
and retain it; allocate a second (native handle 1) and drop it; a third
Primary allocation on the same thread returns native handle 1 again — the
recycled handle of matching level (here the only retired one, hence the most
recently retired). -/
theorem claim_C4_reuse :
    c4_r1.result = .ok [mkBuilder 0 0 .Primary]
    ∧ c4_r2.result = .ok [mkBuilder 1 0 .Primary]
    ∧ c4_r3.result = .ok [mkBuilder 1 0 .Primary] := by
  decide

/-- **C7.** Dropping an alloc handle makes no native call (in particular the
native destructor is never invoked), removes exactly one occurrence of the
handle from the alive set while adding exactly one occurrence of its native
handle to the recycle queues (extracted exactly once, never double-released),
and the handle lands in its origin sub-pool's queue for its level. -/
theorem claim_C7_drop_extract_once (s : SysState)
    (a : StandardCommandPoolAlloc) (ha : a ∈ s.handles) :
    ((dropAllocTr s a).2.all (fun e => !e.isNative) = true)
    ∧ countCmdH (dropAlloc s a).handles a.cmd = countCmdH s.handles a.cmd - 1
    ∧ countCmdP (dropAlloc s a).subPools a.cmd = countCmdP s.subPools a.cmd + 1
    ∧ countCmdH (dropAlloc s a).handles a.cmd
        + countCmdP (dropAlloc s a).subPools a.cmd
      = countCmdH s.handles a.cmd + countCmdP s.subPools a.cmd
    ∧ (∀ p, mapLookup s.subPools a.pool = some p →
        mapLookup (dropAlloc s a).subPools a.pool
          = some (pushRecycle p a.level a.cmd)) := by
  have hh : countCmdH (dropAlloc s a).handles a.cmd
      = countCmdH s.handles a.cmd - 1 := countCmdH_removeOne s.handles a ha
  have hp : countCmdP (dropAlloc s a).subPools a.cmd
      = countCmdP s.subPools a.cmd + 1 :=
    countCmdP_insertPush s.subPools a.pool a.level a.cmd
  have hpos : 0 < countCmdH s.handles a.cmd := countCmdH_pos s.handles a ha
  refine ⟨by simp [dropAllocTr, Event.isNative], hh, hp, by omega, ?_⟩
  intro p hlook
  have hpa : poolAt s a.pool = p := by simp [poolAt, hlook]
  show mapLookup (mapInsert s.subPools a.pool
      (pushRecycle (poolAt s a.pool) a.level a.cmd)) a.pool = _
  rw [hpa]
  exact mapLookup_mapInsert_self _ _ _

/-- Witness for C7 at a concrete state: one alive handle with native handle 0
whose drop moves that single occurrence into its sub-pool's queue. -/
theorem claim_C7_drop_extract_once_witness :
    countCmdH (dropAlloc
      { per_thread := [(0, 0)], subPools := [(0, emptyPerThread)],
        nextPoolId := 1, nextFresh := 1, externalStrong := 0,
        handles := [{ cmd := 0, pool := 0, level := .Primary }] }
      { cmd := 0, pool := 0, level := .Primary }).handles 0
      = countCmdH
        [({ cmd := 0, pool := 0, level := .Primary } : StandardCommandPoolAlloc)] 0 - 1
    ∧ countCmdP (dropAlloc
      { per_thread := [(0, 0)], subPools := [(0, emptyPerThread)],
        nextPoolId := 1, nextFresh := 1, externalStrong := 0,
        handles := [{ cmd := 0, pool := 0, level := .Primary }] }
      { cmd := 0, pool := 0, level := .Primary }).subPools 0
      = countCmdP [(0, emptyPerThread)] 0 + 1 :=
  ⟨(claim_C7_drop_extract_once
      { per_thread := [(0, 0)], subPools := [(0, emptyPerThread)],
        nextPoolId := 1, nextFresh := 1, externalStrong := 0,
        handles := [{ cmd := 0, pool := 0, level := .Primary }] }
      { cmd := 0, pool := 0, level := .Primary } (by decide)).2.1,
   (claim_C7_drop_extract_once
      { per_thread := [(0, 0)], subPools := [(0, emptyPerThread)],
        nextPoolId := 1, nextFresh := 1, externalStrong := 0,
        handles := [{ cmd := 0, pool := 0, level := .Primary }] }
      { cmd := 0, pool := 0, level := .Primary } (by decide)).2.2.1⟩

/-- **C8 counterexample.** The claim "the mapping lock is released right after
the sub-pool is resolved and is never held during the native buffer
allocation" is false: on a fresh thread allocating one buffer, the native
allocation event occurs between the map-lock acquire and its release (the
`MutexGuard` lives to the end of `allocate`). -/
theorem claim_C8_counterexample :
    ¬ (∀ (s : SysState) (tid : Nat) (level : CommandBufferLevel)
        (count : Nat) (cE aE : Option OomError),
        noNativeAllocWhileMapLocked
          (allocate s tid level count cE aE).trace false = true) :=
  fun hall =>
    absurd (hall initState 0 CommandBufferLevel.Primary 1 none none) (by decide)

/-- **C8 amended.** The mapping lock is acquired as the first action of
`allocate` and released only when the call returns, so every native buffer
allocation happens while it is held; the per-thread pool lock is additionally
held around the native allocation. -/
theorem claim_C8_amended (s : SysState) (tid : Nat)
    (level : CommandBufferLevel) (count : Nat) (cE aE : Option OomError) :
    (∃ mid, (allocate s tid level count cE aE).trace
        = Event.acquireMapLock :: mid ++ [Event.releaseMapLock])
    ∧ nativeAllocsUnderBothLocks
        (allocate s tid level count cE aE).trace false false = true := by
  cases hres : resolveLive (purgedMap s) s tid with
  | some pid =>
    rw [allocate_resolved s tid level count cE aE pid hres]
    by_cases h : (queueOf (poolAt { s with per_thread := purgedMap s } pid)
        level).length < count
    · rw [allocateBody_trace_short _ pid level count aE _ h]
      exact ⟨⟨[.acquirePoolLock, .nativeAllocateBuffers _, .releasePoolLock], rfl⟩,
        by simp [nativeAllocsUnderBothLocks]⟩
    · rw [allocateBody_trace_noShort _ pid level count aE _ (by omega)]
      exact ⟨⟨[], rfl⟩, by simp [nativeAllocsUnderBothLocks]⟩
  | none =>
    cases cE with
    | some e =>
      rw [allocate_createErr s tid level count e aE hres]
      exact ⟨⟨[.nativeCreatePool], rfl⟩, by simp [nativeAllocsUnderBothLocks]⟩
    | none =>
      rw [allocate_fresh s tid level count aE hres]
      by_cases h : (queueOf (poolAt
          { s with
            per_thread := mapInsert (purgedMap s) tid s.nextPoolId
            subPools := (s.nextPoolId, emptyPerThread) :: s.subPools
            nextPoolId := s.nextPoolId + 1 } s.nextPoolId) level).length < count
      · rw [allocateBody_trace_short _ _ level count aE _ h]
        exact ⟨⟨[.nativeCreatePool, .acquirePoolLock, .nativeAllocateBuffers _,
          .releasePoolLock], rfl⟩, by simp [nativeAllocsUnderBothLocks]⟩
      · rw [allocateBody_trace_noShort _ _ level count aE _ (by omega)]
        exact ⟨⟨[.nativeCreatePool], rfl⟩, by simp [nativeAllocsUnderBothLocks]⟩

/-- **C9 counterexample.** The claim "`allocate(level, 0)` returns an empty
sequence and performs no native call" is false: on a thread with no live
sub-pool the call still performs the native pool-creation call
(`UnsafeCommandPool::new`). -/
theorem claim_C9_counterexample :
    ¬ (∀ (s : SysState) (tid : Nat) (level : CommandBufferLevel)
        (cE aE : Option OomError),
        (allocate s tid level 0 cE aE).result = .ok []
        ∧ (allocate s tid level 0 cE aE).trace.all
            (fun e => !e.isNative) = true) :=
  fun hall =>
    absurd (hall initState 0 CommandBufferLevel.Primary none none).2 (by decide)

/-- **C9 amended.** `allocate(level, 0)` never performs a native buffer
allocation, and any successful result is the empty sequence.  When the
calling thread already has a live sub-pool, the call performs no native call
at all and returns the empty sequence; on a thread without one, the native
pool-creation call still runs and its out-of-memory failure is returned. -/
theorem claim_C9_amended (s : SysState) (tid : Nat)
    (level : CommandBufferLevel) (cE aE : Option OomError) :
    (∀ n, Event.nativeAllocateBuffers n ∉ (allocate s tid level 0 cE aE).trace)
    ∧ (∀ l, (allocate s tid level 0 cE aE).result = .ok l → l = [])
    ∧ (∀ pid, resolveLive (purgedMap s) s tid = some pid →
        (allocate s tid level 0 cE aE).trace.all (fun e => !e.isNative) = true
        ∧ (allocate s tid level 0 cE aE).result = .ok [])
    ∧ (∀ e, resolveLive (purgedMap s) s tid = none → cE = some e →
        (allocate s tid level 0 cE aE).result = .error e) := by
  cases hres : resolveLive (purgedMap s) s tid with
  | some pid =>
    rw [allocate_resolved s tid level 0 cE aE pid hres]
    rw [allocateBody_trace_noShort _ pid level 0 aE _ (Nat.zero_le _),
      allocateBody_result_noShort _ pid level 0 aE _ (Nat.zero_le _)]
    refine ⟨by simp, ?_, ?_, ?_⟩
    · intro l hl
      simp at hl
      exact hl
    · intro pid2 _
      exact ⟨by simp [Event.isNative], by simp⟩
    · intro e h
      cases h
  | none =>
    cases cE with
    | some e =>
      rw [allocate_createErr s tid level 0 e aE hres]
      refine ⟨by simp, ?_, ?_, ?_⟩
      · intro l hl
        simp at hl
      · intro pid2 h2
        cases h2
      · intro e2 _ he
        cases he
        rfl
    | none =>
      rw [allocate_fresh s tid level 0 aE hres]
      rw [allocateBody_trace_noShort _ _ level 0 aE _ (Nat.zero_le _),
        allocateBody_result_noShort _ _ level 0 aE _ (Nat.zero_le _)]
      refine ⟨by simp, ?_, ?_, ?_⟩
      · intro l hl
        simp at hl
        exact hl
      · intro pid2 h2
        cases h2
      · intro e2 _ he
        cases he

/-- Witness for the amended C9, on a state whose thread 0 has a live
sub-pool: the zero-count call performs no native call at all. -/
theorem claim_C9_amended_witness :
    (allocate
      { per_thread := [(0, 0)], subPools := [(0, emptyPerThread)],
        nextPoolId := 1, nextFresh := 1, externalStrong := 1,
        handles := [{ cmd := 0, pool := 0, level := .Primary }] }
      0 CommandBufferLevel.Primary 0 none none).trace.all
        (fun e => !e.isNative) = true
    ∧ (allocate
      { per_thread := [(0, 0)], subPools := [(0, emptyPerThread)],
        nextPoolId := 1, nextFresh := 1, externalStrong := 1,
        handles := [{ cmd := 0, pool := 0, level := .Primary }] }
      0 CommandBufferLevel.Primary 0 none none).result = .ok [] :=
  (claim_C9_amended
      { per_thread := [(0, 0)], subPools := [(0, emptyPerThread)],
        nextPoolId := 1, nextFresh := 1, externalStrong := 1,
        handles := [{ cmd := 0, pool := 0, level := .Primary }] }
      0 CommandBufferLevel.Primary none none).2.2.1 0 (by decide)

theorem queueOf_empty (level : CommandBufferLevel) :
    queueOf emptyPerThread level = [] := by
  cases level <;> rfl

theorem poolAt_set_per_thread (s : SysState) (m : List (Nat × Nat))
    (pid : Nat) : poolAt { s with per_thread := m } pid = poolAt s pid := rfl

theorem purged_lookup_none (s : SysState) (tid2 : Nat)
    (hdead : ∀ pid2, (tid2, pid2) ∈ s.per_thread → subPoolLive s pid2 = false) :
    mapLookup (purgedMap s) tid2 = none := by
  cases hl : mapLookup (purgedMap s) tid2 with
  | none => rfl
  | some v =>
    exfalso
    have hmem := List.mem_filter.1 (mapLookup_mem _ _ _ hl)
    have hlive : subPoolLive s v = true := hmem.2
    rw [hdead v hmem.1] at hlive
    cases hlive

theorem allocate_per_thread (s : SysState) (tid : Nat)
    (level : CommandBufferLevel) (count : Nat) (cE aE : Option OomError) :
    (allocate s tid level count cE aE).state.per_thread = purgedMap s
    ∨ (allocate s tid level count cE aE).state.per_thread
        = mapInsert (purgedMap s) tid s.nextPoolId := by
  cases hres : resolveLive (purgedMap s) s tid with
  | some pid =>
    rw [allocate_resolved s tid level count cE aE pid hres,
      allocateBody_per_thread]
    exact Or.inl rfl
  | none =>
    cases cE with
    | some e =>
      rw [allocate_createErr s tid level count e aE hres]
      exact Or.inl rfl
    | none =>
      rw [allocate_fresh s tid level count aE hres, allocateBody_per_thread]
      exact Or.inr rfl

/-- **C6.** Every `allocate` call purges the per-thread mapping first: in the
resulting mapping every entry either belongs to the calling thread or was
still alive at the start of the call, and an entry of another thread whose
sub-pool was dead is gone after the call whichever thread called. -/
theorem claim_C6_stale_purge (s : SysState) (tid : Nat)
    (level : CommandBufferLevel) (count : Nat) (cE aE : Option OomError) :
    (∀ tp ∈ (allocate s tid level count cE aE).state.per_thread,
        tp.1 = tid ∨ subPoolLive s tp.2 = true)
    ∧ (∀ tid2, tid2 ≠ tid →
        (∀ pid2, (tid2, pid2) ∈ s.per_thread → subPoolLive s pid2 = false) →
        mapLookup (allocate s tid level count cE aE).state.per_thread tid2
          = none) := by
  rcases allocate_per_thread s tid level count cE aE with hm | hm
  · rw [hm]
    exact ⟨fun tp htp => Or.inr (List.mem_filter.1 htp).2,
      fun tid2 _ hdead => purged_lookup_none s tid2 hdead⟩
  · rw [hm]
    constructor
    · intro tp htp
      rcases mem_mapInsert _ _ _ _ htp with h | h
      · exact Or.inl (by rw [h])
      · exact Or.inr (List.mem_filter.1 h).2
    · intro tid2 hne hdead
      rw [mapLookup_mapInsert_ne _ tid tid2 _ hne]
      exact purged_lookup_none s tid2 hdead

/-- Witness for C6: thread 5's entry references a dead sub-pool (no alive
handles); after thread 0 allocates, the entry for thread 5 is gone. -/
theorem claim_C6_stale_purge_witness :
    mapLookup (allocate
      { per_thread := [(5, 0)], subPools := [(0, emptyPerThread)],
        nextPoolId := 1, nextFresh := 0, externalStrong := 1, handles := [] }
      0 CommandBufferLevel.Primary 0 none none).state.per_thread 5 = none :=
  (claim_C6_stale_purge
      { per_thread := [(5, 0)], subPools := [(0, emptyPerThread)],
        nextPoolId := 1, nextFresh := 0, externalStrong := 1, handles := [] }
      0 CommandBufferLevel.Primary 0 none none).2 5 (by decide)
    (by
      intro pid2 hm
      simp at hm
      subst hm
      decide)

/-- **C5.** A successful `allocate` returns the handles popped from the
calling thread's recycle queue of the requested level (at most `count` of
them, and never more than the queue holds) followed by freshly allocated
native handles, in that order. -/
theorem claim_C5_recycled_then_fresh (s : SysState) (tid : Nat)
    (level : CommandBufferLevel) (count : Nat) (cE aE : Option OomError) :
    (∀ pid l, resolveLive (purgedMap s) s tid = some pid →
      (allocate s tid level count cE aE).result = .ok l →
      l.map (fun b => b.inner.cmd)
        = (queueOf (poolAt s pid) level).take count
          ++ List.range' s.nextFresh
              (count - min count (queueOf (poolAt s pid) level).length)
      ∧ ((queueOf (poolAt s pid) level).take count).length ≤ count)
    ∧ (∀ l, resolveLive (purgedMap s) s tid = none →
      (allocate s tid level count cE aE).result = .ok l →
      l.map (fun b => b.inner.cmd) = List.range' s.nextFresh count) := by
  constructor
  · intro pid l hres hok
    rw [allocate_resolved s tid level count cE aE pid hres] at hok
    by_cases h : (queueOf (poolAt s pid) level).length < count
    · cases aE with
      | some e =>
        rw [allocateBody_result_short_err { s with per_thread := purgedMap s }
          pid level count e [Event.acquireMapLock] h] at hok
        cases hok
      | none =>
        rw [allocateBody_result_short_ok { s with per_thread := purgedMap s }
          pid level count [Event.acquireMapLock] h] at hok
        cases hok
        constructor
        · simp [poolAt_set_per_thread, mkBuilder, List.map_map, Function.comp_def,
            List.take_of_length_le (le_of_lt h), min_eq_right (le_of_lt h)]
        · rw [List.length_take]
          omega
    · have h2 : count ≤ (queueOf (poolAt s pid) level).length := by omega
      rw [allocateBody_result_noShort { s with per_thread := purgedMap s }
        pid level count aE [Event.acquireMapLock] h2] at hok
      cases hok
      constructor
      · simp [poolAt_set_per_thread, mkBuilder, List.map_map, Function.comp_def,
          min_eq_left h2]
      · rw [List.length_take]
        omega
  · intro l hres hok
    cases cE with
    | some e =>
      rw [allocate_createErr s tid level count e aE hres] at hok
      simp at hok
    | none =>
      rw [allocate_fresh s tid level count aE hres] at hok
      have hpool : poolAt
          { s with
            per_thread := mapInsert (purgedMap s) tid s.nextPoolId
            subPools := (s.nextPoolId, emptyPerThread) :: s.subPools
            nextPoolId := s.nextPoolId + 1 } s.nextPoolId = emptyPerThread := by
        simp [poolAt, mapLookup]
      by_cases hc : 0 < count
      · have hshort : (queueOf (poolAt
            { s with
              per_thread := mapInsert (purgedMap s) tid s.nextPoolId
              subPools := (s.nextPoolId, emptyPerThread) :: s.subPools
              nextPoolId := s.nextPoolId + 1 } s.nextPoolId) level).length
            < count := by
          rw [hpool, queueOf_empty]
          simpa using hc
        cases aE with
        | some e =>
          rw [allocateBody_result_short_err _ _ level count e _ hshort] at hok
          cases hok
        | none =>
          rw [allocateBody_result_short_ok _ _ level count _ hshort] at hok
          cases hok
          simp [hpool, queueOf_empty, mkBuilder, List.map_map, Function.comp_def]
      · have h0 : count = 0 := by omega
        subst h0
        rw [allocateBody_result_noShort _ _ level 0 aE _ (Nat.zero_le _)] at hok
        cases hok
        simp

/-- Witness for C5 at a concrete state: thread 0's primary queue holds native
handle 7 and the fresh counter is at 9; allocating two primary buffers yields
`[7, 9]` — the recycled handle first, then the fresh one. -/
theorem claim_C5_recycled_then_fresh_witness :
    [mkBuilder 7 0 CommandBufferLevel.Primary,
      mkBuilder 9 0 CommandBufferLevel.Primary].map (fun b => b.inner.cmd)
      = (queueOf (poolAt
          { per_thread := [(0, 0)],
            subPools := [(0, { available_primary_command_buffers := [7],
                               available_secondary_command_buffers := [] })],
            nextPoolId := 1, nextFresh := 9, externalStrong := 1,
            handles := [{ cmd := 3, pool := 0, level := .Primary }] } 0)
          CommandBufferLevel.Primary).take 2
        ++ List.range' 9 (2 - min 2 (queueOf (poolAt
          { per_thread := [(0, 0)],
            subPools := [(0, { available_primary_command_buffers := [7],
                               available_secondary_command_buffers := [] })],
            nextPoolId := 1, nextFresh := 9, externalStrong := 1,
            handles := [{ cmd := 3, pool := 0, level := .Primary }] } 0)
          CommandBufferLevel.Primary).length) :=
  ((claim_C5_recycled_then_fresh
      { per_thread := [(0, 0)],
        subPools := [(0, { available_primary_command_buffers := [7],
                           available_secondary_command_buffers := [] })],
        nextPoolId := 1, nextFresh := 9, externalStrong := 1,
        handles := [{ cmd := 3, pool := 0, level := .Primary }] }
      0 CommandBufferLevel.Primary 2 none none).1 0
    [mkBuilder 7 0 CommandBufferLevel.Primary,
      mkBuilder 9 0 CommandBufferLevel.Primary]
    (by decide) (by decide)).1

/-- **C3.** Level isolation: a drop pushes the handle onto its origin
sub-pool's queue of the handle's own level only (the other level's queue is
untouched), and an `allocate` for a level leaves the other level's queue of
the used sub-pool unchanged while every returned handle is either from that
level's queue or freshly allocated — a recycled Primary handle is never
returned to a Secondary request and vice versa. -/
theorem claim_C3_level_isolation :
    (∀ (p : StandardCommandPoolPerThread) (level : CommandBufferLevel) (c : Nat),
      queueOf (pushRecycle p level c) level = queueOf p level ++ [c]
      ∧ queueOf (pushRecycle p level c) level.other = queueOf p level.other)
    ∧ (∀ (s : SysState) (a : StandardCommandPoolAlloc)
        (p : StandardCommandPoolPerThread),
        mapLookup s.subPools a.pool = some p →
        mapLookup (dropAlloc s a).subPools a.pool
          = some (pushRecycle p a.level a.cmd))
    ∧ (∀ (s : SysState) (tid : Nat) (level : CommandBufferLevel) (count : Nat)
        (cE aE : Option OomError) (pid : Nat),
        resolveLive (purgedMap s) s tid = some pid →
        ∃ p2,
          mapLookup (allocate s tid level count cE aE).state.subPools pid
            = some p2
          ∧ queueOf p2 level.other = queueOf (poolAt s pid) level.other
          ∧ (∀ l b, (allocate s tid level count cE aE).result = .ok l →
              b ∈ l →
              b.inner.cmd ∈ queueOf (poolAt s pid) level
              ∨ s.nextFresh ≤ b.inner.cmd)) := by
  refine ⟨?_, ?_, ?_⟩
  · intro p level c
    exact ⟨queueOf_pushRecycle_self p level c, queueOf_pushRecycle_other p level c⟩
  · intro s a p hlook
    have hpa : poolAt s a.pool = p := by simp [poolAt, hlook]
    show mapLookup (mapInsert s.subPools a.pool
        (pushRecycle (poolAt s a.pool) a.level a.cmd)) a.pool = _
    rw [hpa]
    exact mapLookup_mapInsert_self _ _ _
  · intro s tid level count cE aE pid hres
    rw [allocate_resolved s tid level count cE aE pid hres]
    by_cases h : (queueOf (poolAt s pid) level).length < count
    · cases aE with
      | some e =>
        have herr := allocateBody_result_short_err
          { s with per_thread := purgedMap s } pid level count e
          [Event.acquireMapLock] h
        refine ⟨setQueue (poolAt s pid) level
            ((queueOf (poolAt s pid) level).drop count
              ++ (queueOf (poolAt s pid) level).take count), ?_, ?_, ?_⟩
        · rw [allocateBody_subPools_err _ pid level count e _ herr]
          exact mapLookup_mapInsert_self _ _ _
        · exact queueOf_setQueue_other _ _ _
        · intro l b hok _
          rw [herr] at hok
          cases hok
      | none =>
        have hok0 := allocateBody_result_short_ok
          { s with per_thread := purgedMap s } pid level count
          [Event.acquireMapLock] h
        refine ⟨setQueue (poolAt s pid) level
            ((queueOf (poolAt s pid) level).drop count), ?_, ?_, ?_⟩
        · rw [allocateBody_subPools_ok _ pid level count none _ _ hok0]
          exact mapLookup_mapInsert_self _ _ _
        · exact queueOf_setQueue_other _ _ _
        · intro l b hok hb
          rw [hok0] at hok
          cases hok
          rcases List.mem_append.1 hb with hb | hb
          · rcases List.mem_map.1 hb with ⟨c, hc, rfl⟩
            exact Or.inl (by simpa [mkBuilder] using hc)
          · rcases List.mem_map.1 hb with ⟨c, hc, rfl⟩
            have hge := (List.mem_range'_1.1 hc).1
            exact Or.inr (by simpa [mkBuilder] using hge)
    · have hok0 := allocateBody_result_noShort
        { s with per_thread := purgedMap s } pid level count aE
        [Event.acquireMapLock] (Nat.le_of_not_lt h)
      refine ⟨setQueue (poolAt s pid) level
          ((queueOf (poolAt s pid) level).drop count), ?_, ?_, ?_⟩
      · rw [allocateBody_subPools_ok _ pid level count aE _ _ hok0]
        exact mapLookup_mapInsert_self _ _ _
      · exact queueOf_setQueue_other _ _ _
      · intro l b hok hb
        rw [hok0] at hok
        cases hok
        rcases List.mem_map.1 hb with ⟨c, hc, rfl⟩
        exact Or.inl (by simpa [mkBuilder] using List.take_subset _ _ hc)

/-- Witness for C3: dropping a Primary handle with native handle 0 onto its
origin sub-pool pushes it onto that sub-pool's primary queue. -/
theorem claim_C3_level_isolation_witness :
    mapLookup (dropAlloc
      { per_thread := [(0, 0)], subPools := [(0, emptyPerThread)],
        nextPoolId := 1, nextFresh := 1, externalStrong := 0,
        handles := [{ cmd := 0, pool := 0, level := .Primary }] }
      { cmd := 0, pool := 0, level := .Primary }).subPools 0
      = some (pushRecycle emptyPerThread CommandBufferLevel.Primary 0) :=
  claim_C3_level_isolation.2.1
      { per_thread := [(0, 0)], subPools := [(0, emptyPerThread)],
        nextPoolId := 1, nextFresh := 1, externalStrong := 0,
        handles := [{ cmd := 0, pool := 0, level := .Primary }] }
      { cmd := 0, pool := 0, level := .Primary } emptyPerThread (by decide)
